import Mathlib

/-!
Shallow embedding of the rqrs HTTP request builder (`src/api.rs`) and the
long-running-operation poller for image generation
(`src/ai/ycloudml/image.rs`), together with theorems settling the frozen
claims about the repository's specification.

Modelling conventions:
* `serde_json::Value` is modelled by `Json`.  Numbers are modelled as
  integers (`Int`); no claim involves floating-point JSON numbers, and the
  text parser below rejects non-integer numeric literals.
* Machine integers do not occur in the modelled code paths.
* Fallible Rust functions returning `Result<T>` become `Except Err T`.
* The network is modelled explicitly: `Rq::apply` takes the outcome of the
  wire round trip (`Except Unit HttpResponse`) as an argument, and the
  poller takes the list of round-trip outcomes of its status fetches.
* Logging (`tracing`) and the real-time sleep are side effects with no
  effect on the data flow; the poller model records the total slept
  seconds so that timing claims can be stated.
-/

namespace Rqrs

/-- JSON values, modelling `serde_json::Value`.  Objects are association
lists of fields; `serde_json`'s map (a `BTreeMap`) holds unique keys, and
lookups below always take the first matching key. -/
inductive Json where
  | null : Json
  | bool (b : Bool) : Json
  | num (n : Int) : Json
  | str (s : String) : Json
  | arr (elems : List Json) : Json
  | obj (fields : List (String × Json)) : Json

/-- Error taxonomy of the modelled code.  Everything is `anyhow::Error` in
the source; constructors distinguish the distinct failure origins. -/
inductive Err where
  | invalidUrl : Err
  | invalidMethod : Err
  | unsupportedMethod : Err
  | invalidHeaderName : Err
  | invalidHeaderValue : Err
  | invalidPayload : Err
  | decodeError : Err
  | base64Error : Err
  | networkError : Err
  | operationTimeout (attempts : Nat) : Err
deriving DecidableEq, Repr

/-- Valid bytes of an HTTP token (RFC 7230 `tchar`), as accepted by the
`http` crate for header names (uppercase letters are valid and are
normalised to lowercase) and for method names. -/
def isTokenChar (c : Char) : Bool :=
  let n := c.toNat
  (decide (48 ≤ n) && decide (n ≤ 57)) ||
  (decide (97 ≤ n) && decide (n ≤ 122)) ||
  (decide (65 ≤ n) && decide (n ≤ 90)) ||
  [33, 35, 36, 37, 38, 39, 42, 43, 45, 46, 94, 95, 96, 124, 126].contains n

/-- Validity of a header name for `HeaderName::from_bytes`: non-empty and
all token characters. -/
def isValidHeaderName (s : String) : Bool :=
  !s.toList.isEmpty && s.toList.all isTokenChar

/-- ASCII lowercasing of one character, as the `http` crate's header-name
byte table performs it (only `A`-`Z` are mapped). -/
def charLower (c : Char) : Char :=
  if decide (65 ≤ c.toNat) && decide (c.toNat ≤ 90) then Char.ofNat (c.toNat + 32)
  else c

/-- The `http` crate stores header names lowercased; comparisons are
case-insensitive. -/
def lowerName (s : String) : String :=
  String.mk (s.toList.map charLower)

/-- Unicode `White_Space` property, as used by Rust's `str::trim`. -/
def isRustWs (c : Char) : Bool :=
  [9, 10, 11, 12, 13, 32, 133, 160, 5760, 8192, 8193, 8194, 8195, 8196, 8197,
   8198, 8199, 8200, 8201, 8202, 8232, 8233, 8239, 8287, 12288].contains c.toNat

/-- Model of Rust's `str::trim`: strip leading and trailing whitespace. -/
def rustTrim (s : String) : String :=
  String.mk (((s.toList.dropWhile isRustWs).reverse.dropWhile isRustWs).reverse)

/-- Validity of one byte of a header value for `HeaderValue::from_str`:
horizontal tab, or any byte that is at least 32 and not DEL (127).
Non-ASCII characters encode to bytes ≥ 128, which the table accepts, so
the character-level check agrees with the byte-level one. -/
def isValidValueChar (c : Char) : Bool :=
  decide (c.toNat = 9) || (decide (32 ≤ c.toNat) && decide (c.toNat ≠ 127))

/-- Validity of a header value for `HeaderValue::from_str`. -/
def isValidHeaderValue (s : String) : Bool :=
  s.toList.all isValidValueChar

/-- Validity of a method string for `http::Method::from_str`: non-empty
and all token characters.  Note this accepts far more than the four verbs
the dispatcher supports (e.g. `PATCH`, or any extension token). -/
def isValidMethodToken (s : String) : Bool :=
  !s.toList.isEmpty && s.toList.all isTokenChar

/-- HTTP method as the request builder stores it.  The dispatcher supports
only the first four; every other valid token (`PATCH`, extension methods,
lowercase spellings such as `get`, ...) is kept verbatim as `OTHER`. -/
inductive Method where
  | GET : Method
  | POST : Method
  | PUT : Method
  | DELETE : Method
  | OTHER (s : String) : Method
deriving DecidableEq, Repr

/-- Model of `http::Method::from_str`: reject invalid tokens, recognise
the canonical spellings, keep anything else as an extension method. -/
def methodFromStr (s : String) : Except Err Method :=
  if isValidMethodToken s then
    if s = "GET" then .ok .GET
    else if s = "POST" then .ok .POST
    else if s = "PUT" then .ok .PUT
    else if s = "DELETE" then .ok .DELETE
    else .ok (.OTHER s)
  else .error .invalidMethod

/-- One entry of the header map: lowercased name, value, and the
`set_sensitive` flag used for log redaction. -/
structure HeaderEntry where
  name : String
  value : String
  sensitive : Bool
deriving DecidableEq, Repr

/-- Model of `HeaderMap::insert`: replace the entry with the same
(lowercased) name in place, or append.  The builder only ever inserts, so
reachable maps hold at most one entry per name. -/
def headerInsert : List HeaderEntry → HeaderEntry → List HeaderEntry
  | [], e => [e]
  | x :: rest, e =>
    if x.name = e.name then e :: rest else x :: headerInsert rest e

/-- The base-URL holder (`Bot` in `src/lib.rs`).  The URL string has been
validated by `url::Url::parse` at construction. -/
structure Bot where
  url : String
  debug : Bool
deriving DecidableEq, Repr

/-- Simplified absolute-URL validity check standing in for
`url::Url::parse` (scheme letter, scheme characters, then a colon).  No
claim exercises URL parsing; only success on the concrete base URLs of the
repository matters here. -/
def isAbsoluteUrl (s : String) : Bool :=
  match s.toList with
  | [] => false
  | c :: rest => c.isAlpha && (rest.takeWhile (fun d => d.toNat ≠ 58)).all
      (fun d => d.isAlphanum || d.toNat = 43 || d.toNat = 45 || d.toNat = 46)
      && rest.any (fun d => d.toNat = 58)

/-- Model of `Bot::new`: parse the base URL, fail with `InvalidUrl` when
it is not absolute. -/
def Bot.new (url : String) : Except Err Bot :=
  if isAbsoluteUrl url then .ok { url := url, debug := false }
  else .error .invalidUrl

/-- The request builder `Rq` from `src/api.rs`. -/
structure Rq where
  bot : Bot
  uri : String
  json : Json
  form : List (String × String)
  method : Method
  headers : List HeaderEntry
  params : List (String × String)

/-- Model of `Rq::new`: empty path, empty JSON object body, empty form,
`GET`, no headers, no params. -/
def Rq.new (bot : Bot) : Rq :=
  { bot := bot, uri := "", json := .obj [], form := [], method := .GET,
    headers := [], params := [] }

/-- Model of `Rq::from_static`. -/
def Rq.from_static (s : String) : Except Err Rq :=
  (Bot.new s).map Rq.new

/-- Model of `Rq::uri` (named `setUri` because `uri` is the field). -/
def Rq.setUri (rq : Rq) (uri : String) : Rq :=
  { rq with uri := uri }

/-- Model of `Rq::method` (named `setMethod` because `method` is the
field): parse via `Method::from_str` and store the result. -/
def Rq.setMethod (rq : Rq) (method : String) : Except Err Rq :=
  (methodFromStr method).map (fun m => { rq with method := m })

/-- Model of `Rq::add_secret_header`: validate the value first (fail with
`InvalidHeaderValue`), mark it sensitive, then validate the name (fail
with `InvalidHeaderName`), then insert. -/
def Rq.add_secret_header (rq : Rq) (header value : String) : Except Err Rq :=
  if isValidHeaderValue value then
    if isValidHeaderName header then
      let entry : HeaderEntry := ⟨lowerName header, value, true⟩
      .ok { rq with headers := headerInsert rq.headers entry }
    else .error .invalidHeaderName
  else .error .invalidHeaderValue

/-- Model of `Rq::add_header`: an invalid name is logged and skipped (the
builder is returned unchanged, wrapped in `Ok`); with a valid name an
invalid value fails the chain with `InvalidHeaderValue`; otherwise the
header is inserted non-sensitive. -/
def Rq.add_header (rq : Rq) (header value : String) : Except Err Rq :=
  if isValidHeaderName header then
    if isValidHeaderValue value then
      let entry : HeaderEntry := ⟨lowerName header, value, false⟩
      .ok { rq with headers := headerInsert rq.headers entry }
    else .error .invalidHeaderValue
  else .ok rq

/-- Model of `Rq::with_json`: add `Accept` and `Content-Type` headers. -/
def Rq.with_json (rq : Rq) : Except Err Rq := do
  let rq ← rq.add_header "Accept" "application/json"
  rq.add_header "Content-Type" "application/json"

/-- Model of `Rq::add_params`: wholesale replacement of the query
parameters (not additive). -/
def Rq.add_params (rq : Rq) (params : List (String × String)) : Rq :=
  { rq with params := params }

/-- Insert a key into an object's field list, overwriting in place the
first existing entry with that key, else appending (the observable
behaviour of `BTreeMap::insert` up to field order). -/
def jsonInsertKey : List (String × Json) → String → Json → List (String × Json)
  | [], k, v => [(k, v)]
  | (k₁, v₁) :: rest, k, v =>
    if k₁ = k then (k₁, v) :: rest else (k₁, v₁) :: jsonInsertKey rest k v

/-- Model of `serde_json::Value`'s `IndexMut<&str>` assignment
`value[key] = v`: `Null` becomes a fresh one-field object, objects get the
key inserted/overwritten.  On any other value the Rust code panics; that
branch is unreachable from builder states (the body starts as `{}` and is
only ever modified by this operation), and is modelled as the identity. -/
def jsonSet (j : Json) (k : String) (v : Json) : Json :=
  match j with
  | .null => .obj [(k, v)]
  | .obj fields => .obj (jsonInsertKey fields k v)
  | other => other

/-- Lookup of a key in an object's field list (first match). -/
def lookupKey : List (String × Json) → String → Option Json
  | [], _ => none
  | (k₁, v₁) :: rest, k => if k₁ = k then some v₁ else lookupKey rest k

/-- Lookup of a top-level key in a JSON value (`Value::get`). -/
def jsonGet (j : Json) (k : String) : Option Json :=
  match j with
  | .obj fields => lookupKey fields k
  | _ => none

/-- Whether a JSON value is an object (`Value::as_object().is_some()`). -/
def Json.isObj : Json → Bool
  | .obj _ => true
  | _ => false

/-- Model of `Rq::load_payload`: fail with `InvalidPayload` unless the
argument is an object; otherwise assign each top-level field of the
argument into the body, overwriting existing keys.  (`serde_json`'s map
iterates in ascending key order; with an object's unique keys the fold
order does not affect any lookup.) -/
def Rq.load_payload (rq : Rq) (value : Json) : Except Err Rq :=
  match value with
  | .obj fields =>
      .ok { rq with json := fields.foldl (fun j kv => jsonSet j kv.1 kv.2) rq.json }
  | _ => .error .invalidPayload

/-- Model of `Rq::add_payload`: assign one top-level body key. -/
def Rq.add_payload (rq : Rq) (key : String) (value : Json) : Rq :=
  { rq with json := jsonSet rq.json key value }

/-- Model of `Rq::add_form`: append one form pair (additive, duplicates
allowed, order preserved). -/
def Rq.add_form (rq : Rq) (key value : String) : Rq :=
  { rq with form := rq.form ++ [(key, value)] }

/-- Model of `Rq::apply_if`: apply the function only when the optional
value is present. -/
def Rq.apply_if {T : Type} (rq : Rq) (val : Option T) (fn : Rq → T → Rq) : Rq :=
  match val with
  | some v => fn rq v
  | none => rq

/-- JSON whitespace skipping (space, tab, line feed, carriage return). -/
def skipWs (cs : List Char) : List Char :=
  cs.dropWhile (fun c => c.toNat = 32 || c.toNat = 9 || c.toNat = 10 || c.toNat = 13)

/-- Hexadecimal digit value. -/
def hexVal (c : Char) : Option Nat :=
  let n := c.toNat
  if decide (48 ≤ n) && decide (n ≤ 57) then some (n - 48)
  else if decide (97 ≤ n) && decide (n ≤ 102) then some (n - 87)
  else if decide (65 ≤ n) && decide (n ≤ 70) then some (n - 55)
  else none

/-- Body of a JSON string literal, after the opening quote.  Handles the
JSON escapes; a `\u` escape becomes the single code point it denotes
(surrogate-pair combining, which `serde_json` performs, is not modelled —
no claim involves `\u` escapes).  Raw control characters are rejected, as
`serde_json` rejects them. -/
def parseStringAux : List Char → List Char → Option (String × List Char)
  | [], _ => none
  | c :: r, acc =>
    if c.toNat = 34 then some (String.mk acc.reverse, r)
    else if c.toNat = 92 then
      match r with
      | [] => none
      | e :: r2 =>
        if e.toNat = 34 || e.toNat = 92 || e.toNat = 47 then
          parseStringAux r2 (e :: acc)
        else if e = 'b' then parseStringAux r2 (Char.ofNat 8 :: acc)
        else if e = 'f' then parseStringAux r2 (Char.ofNat 12 :: acc)
        else if e = 'n' then parseStringAux r2 (Char.ofNat 10 :: acc)
        else if e = 'r' then parseStringAux r2 (Char.ofNat 13 :: acc)
        else if e = 't' then parseStringAux r2 (Char.ofNat 9 :: acc)
        else if e = 'u' then
          match r2 with
          | h1 :: h2 :: h3 :: h4 :: r3 =>
            match hexVal h1, hexVal h2, hexVal h3, hexVal h4 with
            | some a, some b, some c2, some d =>
                parseStringAux r3 (Char.ofNat (((a * 16 + b) * 16 + c2) * 16 + d) :: acc)
            | _, _, _, _ => none
          | _ => none
        else none
    else if decide (c.toNat < 32) then none
    else parseStringAux r (c :: acc)

/-- Digit run accumulation for number literals. -/
def takeDigits (acc : Nat) : List Char → Nat × List Char
  | [] => (acc, [])
  | c :: r =>
    if c.isDigit then takeDigits (acc * 10 + (c.toNat - 48)) r else (acc, c :: r)

/-- Reject a numeric literal continued by `.`, `e` or `E`: those are
floating-point literals, outside this integer-valued model (no claim
involves them). -/
def intTail (n : Nat) (cs : List Char) : Option (Nat × List Char) :=
  match cs with
  | c :: _ =>
    if c.toNat = 46 || c.toNat = 101 || c.toNat = 69 then none else some (n, cs)
  | [] => some (n, cs)

/-- Unsigned integer literal: no leading zeros (JSON grammar). -/
def parseNatLit (cs : List Char) : Option (Nat × List Char) :=
  match cs with
  | [] => none
  | c :: r =>
    if c.isDigit then
      if c.toNat = 48 then
        match r with
        | d :: _ => if d.isDigit then none else intTail 0 r
        | [] => some (0, [])
      else
        let p := takeDigits (c.toNat - 48) r
        intTail p.1 p.2
    else none

/-- Signed integer literal. -/
def parseIntLit (cs : List Char) : Option (Int × List Char) :=
  match cs with
  | c :: r =>
    if c.toNat = 45 then (parseNatLit r).map (fun p => (-(p.1 : Int), p.2))
    else (parseNatLit cs).map (fun p => ((p.1 : Int), p.2))
  | [] => none

mutual

/-- Fuel-based recursive-descent JSON value parser modelling
`serde_json::from_str::<Value>` (numbers restricted to integers as noted
on `Json`). -/
def parseValue : Nat → List Char → Option (Json × List Char)
  | 0, _ => none
  | fuel + 1, cs =>
    match skipWs cs with
    | [] => none
    | 'n' :: 'u' :: 'l' :: 'l' :: r => some (.null, r)
    | 't' :: 'r' :: 'u' :: 'e' :: r => some (.bool true, r)
    | 'f' :: 'a' :: 'l' :: 's' :: 'e' :: r => some (.bool false, r)
    | c :: r =>
      if c.toNat = 34 then
        (parseStringAux r []).map (fun p => (.str p.1, p.2))
      else if c.toNat = 123 then parseObjFields fuel r []
      else if c.toNat = 91 then parseArrElems fuel r []
      else (parseIntLit (c :: r)).map (fun p => (.num p.1, p.2))

/-- Object members after the opening brace; duplicate keys overwrite
(`serde_json` map insertion). -/
def parseObjFields : Nat → List Char → List (String × Json) →
    Option (Json × List Char)
  | 0, _, _ => none
  | fuel + 1, cs, acc =>
    match skipWs cs with
    | [] => none
    | c :: r =>
      if c.toNat = 125 && acc.isEmpty then some (.obj [], r)
      else if c.toNat = 34 then
        match parseStringAux r [] with
        | none => none
        | some (k, r2) =>
          match skipWs r2 with
          | [] => none
          | c2 :: r3 =>
            if c2.toNat = 58 then
              match parseValue fuel r3 with
              | none => none
              | some (v, r4) =>
                let acc2 := jsonInsertKey acc k v
                match skipWs r4 with
                | [] => none
                | c3 :: r5 =>
                  if c3.toNat = 44 then parseObjFields fuel r5 acc2
                  else if c3.toNat = 125 then some (.obj acc2, r5)
                  else none
            else none
      else none

/-- Array elements after the opening bracket. -/
def parseArrElems : Nat → List Char → List Json → Option (Json × List Char)
  | 0, _, _ => none
  | fuel + 1, cs, acc =>
    match skipWs cs with
    | [] => none
    | c :: r =>
      if c.toNat = 93 && acc.isEmpty then some (.arr [], r)
      else
        match parseValue fuel (c :: r) with
        | none => none
        | some (v, r2) =>
          match skipWs r2 with
          | [] => none
          | c2 :: r3 =>
            if c2.toNat = 44 then parseArrElems fuel r3 (acc ++ [v])
            else if c2.toNat = 93 then some (.arr (acc ++ [v]), r3)
            else none

end

/-- Model of `serde_json::from_str::<Value>`: a complete JSON value with
only trailing whitespace. -/
def serdeFromStr (s : String) : Option Json :=
  match parseValue (2 * s.length + 4) s.toList with
  | some (j, rest) => if (skipWs rest).isEmpty then some j else none
  | none => none

/-- Outcome of one wire round trip: the HTTP status numeral and the body
text read by `Response::text`. -/
structure HttpResponse where
  status : Nat
  body : String
deriving DecidableEq, Repr

/-- Transport verb actually selected by the dispatcher. -/
inductive Verb where
  | GET : Verb
  | POST : Verb
  | PUT : Verb
  | DELETE : Verb
deriving DecidableEq, Repr

/-- The body attached to the outgoing request: either the JSON body or
the URL-encoded form, never both. -/
inductive Body where
  | json (j : Json) : Body
  | form (fields : List (String × String)) : Body

/-- The finalized outgoing request the dispatcher hands to the transport:
verb, headers, query parameters and body. -/
structure SentRequest where
  verb : Verb
  headers : List HeaderEntry
  params : List (String × String)
  body : Body

/-- The response envelope `Rs` from `src/api.rs`. -/
structure Rs where
  data : Json
  raw : Option String
  status : Nat

/-- Model of `Rs`'s `#[derive(Default)]`: `serde_json::Value::default()`
is `Null` and `http::StatusCode::default()` is `200 OK`. -/
def Rs.default : Rs :=
  { data := .null, raw := none, status := 200 }

/-- Model of `StatusCode::is_success`: 2xx. -/
def isSuccessStatus (code : Nat) : Bool :=
  decide (200 ≤ code) && decide (code < 300)

/-- Verb selection of `Rq::apply`'s `match self.method`: any method other
than the four supported ones is rejected with the `anyhow` error
`Unsupported HTTP method`. -/
def verbOf : Method → Except Err Verb
  | .GET => .ok .GET
  | .POST => .ok .POST
  | .DELETE => .ok .DELETE
  | .PUT => .ok .PUT
  | .OTHER _ => .error .unsupportedMethod

/-- The request-construction half of `Rq::apply`: select the verb, attach
headers and query parameters, and attach the form body when the form is
non-empty, else the JSON body (even when empty). -/
def buildRequest (rq : Rq) : Except Err SentRequest :=
  (verbOf rq.method).map (fun v =>
    { verb := v, headers := rq.headers, params := rq.params,
      body := if rq.form.isEmpty then .json rq.json else .form rq.form })

/-- The response-normalisation half of `Rq::apply`: a non-success status
yields `Ok` with only `raw` populated and everything else at its
`Default` (so `data = Null` and `status = 200`, the field the code never
assigns); a success status attempts a JSON parse of the body text,
falling back to `raw` on parse failure — again over `Default`. -/
def handleResponse (resp : HttpResponse) : Rs :=
  if !isSuccessStatus resp.status then
    { Rs.default with raw := some resp.body }
  else
    match serdeFromStr resp.body with
    | some data => { Rs.default with data := data }
    | none => { Rs.default with raw := some resp.body }

/-- Model of `Rq::apply`, parameterised by the wire outcome.  The URL
resolution `self.url()?` (which precedes the verb match and can fail with
`InvalidUrl`) is not modelled: its failure aborts before anything
observable by the claims happens, and no claim exercises URL joining.  A
transport failure of `req.send()` propagates as an error. -/
def Rq.apply (rq : Rq) (net : Except Unit HttpResponse) : Except Err Rs :=
  match buildRequest rq with
  | .error e => .error e
  | .ok _ =>
    match net with
    | .error _ => .error .networkError
    | .ok resp => .ok (handleResponse resp)

namespace Image

/-- Modelled from the spec: the base endpoint URL constant `URL` of the
`ycloudml` module, which `image.rs` imports via `use super::URL`; the
module file defining it is not under `src/`.  Its value is the vendor
host the repository targets (as used verbatim by `YCloudML::apply` in
`src/ai/ycloudml.rs`); no claim depends on the value, only on it being a
valid absolute URL. -/
def URL : String := "https://llm.api.cloud.yandex.net"

/-- Value of one base64 symbol in the standard alphabet. -/
def b64Val (c : Char) : Option Nat :=
  let n := c.toNat
  if decide (65 ≤ n) && decide (n ≤ 90) then some (n - 65)
  else if decide (97 ≤ n) && decide (n ≤ 122) then some (n - 71)
  else if decide (48 ≤ n) && decide (n ≤ 57) then some (n + 4)
  else if decide (n = 43) then some 62
  else if decide (n = 47) then some 63
  else none

/-- Final quantum of a base64 input (canonical padding required, unused
trailing bits required to be zero, as the `base64` crate's `STANDARD`
engine enforces). -/
def b64Final (a b c d : Char) : Except Err (List Nat) :=
  if d.toNat = 61 then
    if c.toNat = 61 then
      match b64Val a, b64Val b with
      | some va, some vb =>
        if vb % 16 = 0 then .ok [va * 4 + vb / 16] else .error .base64Error
      | _, _ => .error .base64Error
    else
      match b64Val a, b64Val b, b64Val c with
      | some va, some vb, some vc =>
        if vc % 4 = 0 then .ok [va * 4 + vb / 16, (vb % 16) * 16 + vc / 4]
        else .error .base64Error
      | _, _, _ => .error .base64Error
  else
    match b64Val a, b64Val b, b64Val c, b64Val d with
    | some va, some vb, some vc, some vd =>
      .ok [va * 4 + vb / 16, (vb % 16) * 16 + vc / 4, (vc % 4) * 64 + vd]
    | _, _, _, _ => .error .base64Error

/-- Quantum-by-quantum base64 decoding; padding may occur only in the
final quantum, and the length must be a multiple of four. -/
def b64Go : List Char → Except Err (List Nat)
  | [] => .ok []
  | a :: b :: c :: d :: rest =>
    if rest.isEmpty then b64Final a b c d
    else
      match b64Val a, b64Val b, b64Val c, b64Val d with
      | some va, some vb, some vc, some vd =>
        (b64Go rest).map (fun tl =>
          (va * 4 + vb / 16) :: ((vb % 16) * 16 + vc / 4) :: ((vc % 4) * 64 + vd) :: tl)
      | _, _, _, _ => .error .base64Error
  | _ => .error .base64Error

/-- Model of `BASE64_STANDARD.decode`. -/
def base64Decode (s : String) : Except Err (List Nat) :=
  b64Go s.toList

/-- The `response` payload object of a finished operation
(`Object` in `image.rs`): `@type`, base64 `image`, `modelVersion`. -/
structure Object where
  type : String
  image : String
  model_version : String
deriving DecidableEq, Repr

/-- The operation status document (`Response` in `image.rs`). -/
structure Response where
  created_at : Option String
  created_by : Option String
  description : String
  done : Bool
  id : String
  metadata : Option String
  modified_at : Option String
  response : Option Object
deriving DecidableEq, Repr

/-- Required string field for the `serde` derive. -/
def getStrField (fs : List (String × Json)) (k : String) : Except Err String :=
  match lookupKey fs k with
  | some (.str s) => .ok s
  | _ => .error .decodeError

/-- Required boolean field for the `serde` derive. -/
def getBoolField (fs : List (String × Json)) (k : String) : Except Err Bool :=
  match lookupKey fs k with
  | some (.bool b) => .ok b
  | _ => .error .decodeError

/-- `Option<String>` field for the `serde` derive: absent or `null` is
`None`; any other non-string value is a type error. -/
def getOptStrField (fs : List (String × Json)) (k : String) :
    Except Err (Option String) :=
  match lookupKey fs k with
  | none => .ok none
  | some .null => .ok none
  | some (.str s) => .ok (some s)
  | some _ => .error .decodeError

/-- Model of `serde_json::from_value::<Object>`. -/
def Object.fromJson (j : Json) : Except Err Object :=
  match j with
  | .obj fs => do
    let t ← getStrField fs "@type"
    let img ← getStrField fs "image"
    let mv ← getStrField fs "modelVersion"
    .ok ⟨t, img, mv⟩
  | _ => .error .decodeError

/-- `Option<Object>` field for the `serde` derive. -/
def getOptObjField (fs : List (String × Json)) (k : String) :
    Except Err (Option Object) :=
  match lookupKey fs k with
  | none => .ok none
  | some .null => .ok none
  | some j => (Object.fromJson j).map some

/-- Model of `serde_json::from_value::<Response>`: the serde derive with
the field renames of `image.rs`; anything that is not an object with the
required fields of the right types is a decode error; unknown fields are
ignored. -/
def Response.fromJson (j : Json) : Except Err Response :=
  match j with
  | .obj fs => do
    let ca ← getOptStrField fs "createdAt"
    let cb ← getOptStrField fs "created_by"
    let d ← getStrField fs "description"
    let dn ← getBoolField fs "done"
    let i ← getStrField fs "id"
    let md ← getOptStrField fs "metadata"
    let ma ← getOptStrField fs "modifiedAt"
    let rsp ← getOptObjField fs "response"
    .ok ⟨ca, cb, d, dn, i, md, ma, rsp⟩
  | _ => .error .decodeError

/-- The fixed retry budget of `Payload::image`. -/
def maxAttempts : Nat := 10

/-- The fixed sleep interval of `Payload::image`, in seconds. -/
def sleepSecs : Nat := 20

/-- Outcome of the poller: on completion, the bytes written to the file;
otherwise the propagated error. -/
inductive PollResult where
  | done (written : List Nat) : PollResult
  | failed (e : Err) : PollResult
deriving DecidableEq, Repr

/-- Observable trace of the poll loop: how many status fetches were
issued and how many seconds were spent sleeping. -/
structure PollTrace where
  fetches : Nat
  slept : Nat
deriving DecidableEq, Repr

/-- The status-check request `Payload::image` builds once before the
loop: `GET /operations/{id}` against `URL`, with the sensitive
`authorization` header and the JSON accept/content-type headers. -/
def pollRequest (id auth : String) : Except Err Rq := do
  let rq ← Rq.from_static URL
  let rq := rq.setUri ("/operations/" ++ id)
  let rq ← rq.setMethod "GET"
  let rq ← rq.add_secret_header "authorization" auth
  rq.with_json

/-- Classification of one loop iteration of `Payload::image`: the body
either propagates an error (`rq.apply(...)?`, `serde_json::from_value?`,
or the base64 decode), returns the decoded image bytes
(`done` with a result), or falls through to the sleep (`done=false`, or
`done=true` with no result). -/
inductive FetchStep where
  | abort (e : Err) : FetchStep
  | complete (written : List Nat) : FetchStep
  | pending : FetchStep
deriving DecidableEq, Repr

/-- The body of one poll iteration, straight from the loop of
`Payload::image`. -/
def fetchStep (rq : Rq) (net : Except Unit HttpResponse) : FetchStep :=
  match rq.apply net with
  | .error e => .abort e
  | .ok rs =>
    match Response.fromJson rs.data with
    | .error e => .abort e
    | .ok st =>
      match st.done, st.response with
      | true, some obj =>
        match base64Decode obj.image with
        | .error e => .abort e
        | .ok buf => .complete buf
      | _, _ => .pending

/-- Whether a prearranged wire outcome makes one iteration fall through
to the sleep-and-retry branch. -/
def pendingFetch (rq : Rq) (net : Except Unit HttpResponse) : Bool :=
  decide (fetchStep rq net = .pending)

/-- The retry loop of `Payload::image` (`for _ in 1..=max_attempts`),
parameterised by the prearranged wire outcomes of the successive status
fetches.  Each iteration runs `fetchStep`: an error aborts immediately,
a completed operation returns the decoded bytes, and a pending one sleeps
the fixed interval and retries; an exhausted budget fails with the
timeout error carrying `max_attempts`.  `none` means the environment ran
out of prearranged outcomes while the loop wanted to fetch again. -/
def pollGo (rq : Rq) (env : List (Except Unit HttpResponse))
    (remaining fetches slept : Nat) : Option (PollResult × PollTrace) :=
  match remaining, env with
  | 0, _ => some (.failed (.operationTimeout maxAttempts), ⟨fetches, slept⟩)
  | _ + 1, [] => none
  | r + 1, net :: rest =>
    match fetchStep rq net with
    | .abort e => some (.failed e, ⟨fetches + 1, slept⟩)
    | .complete buf => some (.done buf, ⟨fetches + 1, slept⟩)
    | .pending => pollGo rq rest r (fetches + 1) (slept + sleepSecs)

/-- Model of `Payload::image`: deserialize the initial envelope's `data`
as a `Response`, build the status-check request from its operation `id`
and the trimmed bearer token, then run the retry loop.  The file handle
is modelled by the bytes a successful run writes (`write_all` failure is
an environmental I/O effect outside the model). -/
def Payload.image (rs : Rs) (jwt : String)
    (env : List (Except Unit HttpResponse)) : Option (PollResult × PollTrace) :=
  match Response.fromJson rs.data with
  | .error e => some (.failed e, ⟨0, 0⟩)
  | .ok r =>
    let auth := "Bearer " ++ rustTrim jwt
    match pollRequest r.id auth with
    | .error e => some (.failed e, ⟨0, 0⟩)
    | .ok rq => pollGo rq env maxAttempts 0 0

end Image

/-! Shared fixtures: a concrete builder (base URL as in the repository's
environment default), and concrete wire outcomes for the poller. -/

/-- The repository's default base URL (`RQRS_URL` fallback in
`src/lib.rs`), as a parsed `Bot`. -/
def bot0 : Bot := { url := "http://localhost:3000", debug := false }

/-- A fresh builder over `bot0`. -/
def rq0 : Rq := Rq.new bot0

/-- Wire outcome: success status, operation not done. -/
def netPending : Except Unit HttpResponse :=
  .ok ⟨200, "\x7b\"description\":\"d\",\"done\":false,\"id\":\"op1\"\x7d"⟩

/-- Wire outcome: success status, `done=true` but no `response` payload. -/
def netDoneNoResult : Except Unit HttpResponse :=
  .ok ⟨200, "\x7b\"description\":\"d\",\"done\":true,\"id\":\"op1\"\x7d"⟩

/-- Wire outcome: success status, operation done with a result whose
image is the base64 of the bytes `[65, 66, 67]`. -/
def netDone : Except Unit HttpResponse :=
  .ok ⟨200, "\x7b\"description\":\"d\",\"done\":true,\"id\":\"op1\",\"response\":\x7b\"@type\":\"t\",\"image\":\"QUJD\",\"modelVersion\":\"v\"\x7d\x7d"⟩

/-- Wire outcome: a non-success HTTP status on the status fetch. -/
def netFail500 : Except Unit HttpResponse :=
  .ok ⟨500, "backend error"⟩

/-- The initial envelope handed to the poller: a freshly created
operation (`done=false`) with identifier `op1`. -/
def rsInitial : Rs :=
  { data := .obj [("description", .str "d"), ("done", .bool false),
                  ("id", .str "op1")],
    raw := none, status := 200 }

/-- Number of header-map entries carrying the given (lowercased) name. -/
def countName (hs : List HeaderEntry) (n : String) : Nat :=
  (hs.filter (fun e => e.name == n)).length

/-- First header-map entry with the given name (`HeaderMap::get`). -/
def findName (hs : List HeaderEntry) (n : String) : Option HeaderEntry :=
  hs.find? (fun e => e.name == n)

/-! Helper lemmas. -/

/-- Inserting twice under the same name collapses to the second insert. -/
theorem headerInsert_insert_same (hs : List HeaderEntry) (e₁ e₂ : HeaderEntry)
    (h : e₁.name = e₂.name) :
    headerInsert (headerInsert hs e₁) e₂ = headerInsert hs e₂ := by
  induction hs with
  | nil => simp [headerInsert, h]
  | cons x rest ih =>
    by_cases hx : x.name = e₁.name
    · have hx2 : x.name = e₂.name := hx.trans h
      simp [headerInsert, hx, hx2, h]
    · have hx2 : ¬x.name = e₂.name := fun hc => hx (hc.trans h.symm)
      simp [headerInsert, hx, hx2, ih]

/-- After an insert, the lookup under the inserted name finds exactly the
inserted entry. -/
theorem findName_insert_self (hs : List HeaderEntry) (e : HeaderEntry) :
    findName (headerInsert hs e) e.name = some e := by
  induction hs with
  | nil => simp [findName, headerInsert]
  | cons x rest ih =>
    by_cases hx : x.name = e.name
    · simp [headerInsert, hx, findName]
    · simp only [headerInsert, if_neg hx]
      rw [findName, List.find?_cons_of_neg _ (by simp [hx])]
      simpa [findName] using ih

/-- The length of the inserted map depends only on the inserted name. -/
theorem length_headerInsert_name (hs : List HeaderEntry) (e f : HeaderEntry)
    (h : e.name = f.name) :
    (headerInsert hs e).length = (headerInsert hs f).length := by
  induction hs with
  | nil => simp [headerInsert]
  | cons x rest ih =>
    by_cases hx : x.name = e.name
    · have hx2 : x.name = f.name := hx.trans h
      simp [headerInsert, hx, hx2, h]
    · have hx2 : ¬x.name = f.name := fun hc => hx (hc.trans h.symm)
      simp [headerInsert, hx, hx2, ih]

/-- Under unique names, every name occurs at most once. -/
theorem countName_le_one_of_nodup (hs : List HeaderEntry) (n : String)
    (h : (hs.map HeaderEntry.name).Nodup) : countName hs n ≤ 1 := by
  induction hs with
  | nil => simp [countName]
  | cons x rest ih =>
    rw [List.map_cons, List.nodup_cons] at h
    by_cases hx : x.name = n
    · have h0 : countName rest n = 0 := by
        rw [countName, List.length_eq_zero, List.filter_eq_nil_iff]
        intro e he
        simp only [beq_iff_eq]
        intro hc
        have hmem : e.name ∈ rest.map HeaderEntry.name :=
          List.mem_map_of_mem HeaderEntry.name he
        rw [hc, ← hx] at hmem
        exact h.1 hmem
      have hcount : countName (x :: rest) n = countName rest n + 1 := by
        simp [countName, List.filter_cons, hx]
      omega
    · have hcount : countName (x :: rest) n = countName rest n := by
        simp [countName, List.filter_cons, hx]
      rw [hcount]
      exact ih h.2

/-- Inserting into a map holding the name at most once leaves exactly one
entry under that name. -/
theorem countName_insert (hs : List HeaderEntry) (e : HeaderEntry)
    (h : countName hs e.name ≤ 1) :
    countName (headerInsert hs e) e.name = 1 := by
  induction hs with
  | nil => simp [headerInsert, countName, List.filter_cons]
  | cons x rest ih =>
    by_cases hx : x.name = e.name
    · have hcount : countName (x :: rest) e.name = countName rest e.name + 1 := by
        simp [countName, List.filter_cons, hx]
      have hr : countName rest e.name = 0 := by omega
      have hgoal : countName (headerInsert (x :: rest) e) e.name =
          countName rest e.name + 1 := by
        simp [headerInsert, hx, countName, List.filter_cons]
      omega
    · have hcount : countName (x :: rest) e.name = countName rest e.name := by
        simp [countName, List.filter_cons, hx]
      have h2 := ih (by omega)
      have hgoal : countName (headerInsert (x :: rest) e) e.name =
          countName (headerInsert rest e) e.name := by
        simp [headerInsert, hx, countName, List.filter_cons]
      omega

/-- Lookup of the inserted key finds the inserted value. -/
theorem lookupKey_insert_self (fs : List (String × Json)) (k : String) (v : Json) :
    lookupKey (jsonInsertKey fs k v) k = some v := by
  induction fs with
  | nil => simp [jsonInsertKey, lookupKey]
  | cons kv rest ih =>
    obtain ⟨k₁, v₁⟩ := kv
    by_cases hk : k₁ = k
    · simp [jsonInsertKey, hk, lookupKey]
    · simp [jsonInsertKey, hk, lookupKey, ih]

/-- Lookup of a different key is untouched by an insert. -/
theorem lookupKey_insert_other (fs : List (String × Json)) (k k' : String)
    (v : Json) (h : k' ≠ k) :
    lookupKey (jsonInsertKey fs k v) k' = lookupKey fs k' := by
  induction fs with
  | nil =>
    simp only [jsonInsertKey, lookupKey]
    rw [if_neg (fun hc => h hc.symm)]
  | cons kv rest ih =>
    obtain ⟨k₁, v₁⟩ := kv
    by_cases hk : k₁ = k
    · subst hk
      have : ¬k₁ = k' := fun hc => h hc.symm
      simp [jsonInsertKey, lookupKey, this]
    · simp [jsonInsertKey, hk, lookupKey, ih]

/-- With a valid bearer value, `pollRequest` succeeds and its result is
the explicit builder below: `GET /operations/{id}` with the sensitive
`authorization` header and the two JSON headers. -/
theorem pollRequest_eq (id auth : String) (hv : isValidHeaderValue auth = true) :
    Image.pollRequest id auth = .ok
      { bot := { url := Image.URL, debug := false },
        uri := "/operations/" ++ id, json := .obj [], form := [],
        method := .GET,
        headers := [⟨"authorization", auth, true⟩,
                    ⟨"accept", "application/json", false⟩,
                    ⟨"content-type", "application/json", false⟩],
        params := [] } := by
  have h1 : Rq.from_static Image.URL =
      .ok (Rq.new { url := Image.URL, debug := false }) := rfl
  have h2 : isValidHeaderName "authorization" = true := rfl
  have h3 : isValidHeaderName "Accept" = true := rfl
  have h4 : isValidHeaderName "Content-Type" = true := rfl
  have h5 : isValidHeaderValue "application/json" = true := rfl
  simp only [Image.pollRequest, h1, bind, Except.bind, Rq.setUri,
    Rq.setMethod, methodFromStr, Rq.add_secret_header, Rq.with_json,
    Rq.add_header, hv, h2, h3, h4, h5, Except.map, Rq.new, if_true,
    reduceIte, headerInsert, lowerName, charLower]
  rfl

/-- A request built successfully by `pollRequest` carries the `GET`
method. -/
theorem pollRequest_method (id auth : String) (rq : Rq)
    (h : Image.pollRequest id auth = .ok rq) : rq.method = Method.GET := by
  by_cases hv : isValidHeaderValue auth = true
  · rw [pollRequest_eq id auth hv] at h
    cases h
    rfl
  · have hv2 : isValidHeaderValue auth = false := by
      revert hv; cases isValidHeaderValue auth <;> simp
    simp only [Image.pollRequest, bind, Except.bind,
      show Rq.from_static Image.URL =
        .ok (Rq.new { url := Image.URL, debug := false }) from rfl,
      Rq.setUri, Rq.setMethod, methodFromStr, Rq.add_secret_header, hv2,
      Except.map, reduceIte] at h
    simp [show isValidMethodToken "GET" = true from rfl] at h

/-- Dispatching a `GET`-method builder against a delivered response
normalises that response. -/
theorem apply_of_GET (rq : Rq) (resp : HttpResponse)
    (h : rq.method = Method.GET) :
    rq.apply (.ok resp) = .ok (handleResponse resp) := by
  simp [Rq.apply, buildRequest, h, verbOf, Except.map]

/-- The poll loop on a pending-only environment long enough for the
budget: exactly one fetch and one sleep per remaining attempt, then the
timeout failure. -/
theorem pollGo_all_pending (rq : Rq) :
    ∀ (n : Nat) (env : List (Except Unit HttpResponse)) (fetches slept : Nat),
    (∀ e ∈ env, Image.pendingFetch rq e = true) → n ≤ env.length →
    Image.pollGo rq env n fetches slept =
      some (.failed (.operationTimeout Image.maxAttempts),
            ⟨fetches + n, slept + Image.sleepSecs * n⟩) := by
  intro n
  induction n with
  | zero => intro env f s _ _; simp [Image.pollGo]
  | succ n ih =>
    intro env f s hall hlen
    match env with
    | [] => simp at hlen
    | e :: rest =>
      have he : Image.fetchStep rq e = .pending := by
        have := hall e (by simp)
        simpa [Image.pendingFetch] using this
      have hrest : ∀ x ∈ rest, Image.pendingFetch rq x = true :=
        fun x hx => hall x (by simp [hx])
      have hlen2 : n ≤ rest.length := by simpa using hlen
      unfold Image.pollGo
      rw [he]
      rw [ih rest (f + 1) (s + Image.sleepSecs) hrest hlen2]
      simp only [Option.some.injEq, Prod.mk.injEq, Image.PollTrace.mk.injEq,
        Image.sleepSecs, true_and]
      omega

/-- Unfolding equation of the poll loop on one available fetch. -/
theorem pollGo_cons (rq : Rq) (net : Except Unit HttpResponse)
    (rest : List (Except Unit HttpResponse)) (r f s : Nat) :
    Image.pollGo rq (net :: rest) (r + 1) f s =
      match Image.fetchStep rq net with
      | .abort e => some (.failed e, ⟨f + 1, s⟩)
      | .complete buf => some (.done buf, ⟨f + 1, s⟩)
      | .pending => Image.pollGo rq rest r (f + 1) (s + Image.sleepSecs) := rfl

/-- One poll iteration that falls through to the sleep. -/
theorem pollGo_cons_pending (rq : Rq) (net : Except Unit HttpResponse)
    (rest : List (Except Unit HttpResponse)) (r f s : Nat)
    (h : Image.fetchStep rq net = .pending) :
    Image.pollGo rq (net :: rest) (r + 1) f s =
      Image.pollGo rq rest r (f + 1) (s + Image.sleepSecs) := by
  rw [pollGo_cons rq net rest r f s, h]

/-- One poll iteration that completes the operation. -/
theorem pollGo_cons_complete (rq : Rq) (net : Except Unit HttpResponse)
    (rest : List (Except Unit HttpResponse)) (r f s : Nat) (buf : List Nat)
    (h : Image.fetchStep rq net = .complete buf) :
    Image.pollGo rq (net :: rest) (r + 1) f s =
      some (.done buf, ⟨f + 1, s⟩) := by
  rw [pollGo_cons rq net rest r f s, h]

/-- One poll iteration that aborts with an error. -/
theorem pollGo_cons_abort (rq : Rq) (net : Except Unit HttpResponse)
    (rest : List (Except Unit HttpResponse)) (r f s : Nat) (e : Err)
    (h : Image.fetchStep rq net = .abort e) :
    Image.pollGo rq (net :: rest) (r + 1) f s =
      some (.failed e, ⟨f + 1, s⟩) := by
  rw [pollGo_cons rq net rest r f s, h]

/-- The envelope always comes back with the default status field. -/
theorem handleResponse_status (resp : HttpResponse) :
    (handleResponse resp).status = 200 := by
  unfold handleResponse
  split
  · rfl
  · split <;> rfl

/-- Normalisation of a non-success response: `raw` holds the body text
and everything else stays at its `Default`. -/
theorem handleResponse_nonsuccess (resp : HttpResponse)
    (h : isSuccessStatus resp.status = false) :
    handleResponse resp = { data := .null, raw := some resp.body, status := 200 } := by
  simp [handleResponse, h, Rs.default]

/-! Claim theorems. -/

/-- C1, counterexample: a dispatch whose response arrives with HTTP
status 500 yields an envelope whose `status` field is 200 — `apply` does
not carry the response's HTTP status in the envelope. -/
theorem apply_status_counterexample :
    Rq.apply rq0 (.ok ⟨500, "oops"⟩) =
      .ok { data := .null, raw := some "oops", status := 200 } ∧
    (200 : Nat) ≠ 500 :=
  ⟨rfl, by decide⟩

/-- C1, amended: `apply` never populates the envelope's `status` field —
it always holds the `Default` value `200 OK` regardless of the response's
actual status; a non-success response is signalled through the empty
(null) `data` together with the populated `raw` body text, not through
`status`. -/
theorem apply_status_always_default (rq : Rq) (net : Except Unit HttpResponse)
    (rs : Rs) (h : rq.apply net = .ok rs) :
    rs.status = 200 ∧
    (∀ resp : HttpResponse, net = .ok resp →
      isSuccessStatus resp.status = false →
      rs.data = .null ∧ rs.raw = some resp.body) := by
  unfold Rq.apply at h
  cases hb : buildRequest rq with
  | error e => rw [hb] at h; simp at h
  | ok sent =>
    rw [hb] at h
    cases net with
    | error u => simp at h
    | ok resp =>
      have hrs : rs = handleResponse resp := by
        simpa using h.symm
      subst hrs
      refine ⟨handleResponse_status resp, ?_⟩
      intro resp2 hnet hfail
      have hh : resp = resp2 := by injection hnet
      subst hh
      rw [handleResponse_nonsuccess resp hfail]
      exact ⟨rfl, rfl⟩

/-- C1 witness: the amended theorem applied at a concrete 404 dispatch,
all hypotheses discharged. -/
theorem apply_status_always_default_witness :
    (Rs.mk .null (some "nf") 200).status = 200 ∧
    (Rs.mk .null (some "nf") 200).data = .null ∧
    (Rs.mk .null (some "nf") 200).raw = some "nf" := by
  have h := apply_status_always_default rq0 (.ok ⟨404, "nf"⟩)
    (Rs.mk .null (some "nf") 200) rfl
  exact ⟨h.1, (h.2 ⟨404, "nf"⟩ rfl (by decide)).1, (h.2 ⟨404, "nf"⟩ rfl (by decide)).2⟩

/-- C2, counterexample: after a non-success dispatch the envelope's
`data` field is JSON `null` — the default of `serde_json::Value` — and
not an empty object, contrary to the claim's data model. -/
theorem apply_nonsuccess_data_counterexample :
    Rq.apply rq0 (.ok ⟨503, "down"⟩) =
      .ok { data := .null, raw := some "down", status := 200 } ∧
    Json.null ≠ Json.obj [] :=
  ⟨rfl, fun h => Json.noConfusion h⟩

/-- C2, amended: for every dispatch whose HTTP response status is not in
the success range, `apply` returns normally with `raw` populated with the
response body text and `data` left at its default value, which is JSON
`null` (not an empty object). -/
theorem apply_nonsuccess_returns_ok (rq : Rq) (resp : HttpResponse)
    (hok : (buildRequest rq).isOk = true)
    (hfail : isSuccessStatus resp.status = false) :
    rq.apply (.ok resp) =
      .ok { data := .null, raw := some resp.body, status := 200 } := by
  unfold Rq.apply
  cases hb : buildRequest rq with
  | error e => rw [hb] at hok; simp [Except.isOk, Except.toBool] at hok
  | ok sent =>
    show Except.ok (handleResponse resp) = _
    rw [handleResponse_nonsuccess resp hfail]

/-- C2 witness: the amended theorem at a concrete 500 dispatch. -/
theorem apply_nonsuccess_returns_ok_witness :
    Rq.apply rq0 (.ok ⟨500, "err"⟩) =
      .ok { data := .null, raw := some "err", status := 200 } :=
  apply_nonsuccess_returns_ok rq0 ⟨500, "err"⟩ (by decide) (by decide)

/-- C3, counterexample: `setMethod "PATCH"` succeeds even though `PATCH`
is outside {GET, POST, PUT, DELETE} — the claim that any such string
fails at `setMethod` is false; the rejection happens at dispatch. -/
theorem setMethod_accepts_patch :
    (rq0.setMethod "PATCH").isOk = true := rfl

/-- C3, amended: `setMethod` succeeds for the four supported verbs and a
subsequent dispatch selects the matching transport verb; `setMethod`
fails (with the method-parse error) exactly for strings that are not
valid HTTP method tokens, while any other valid token (such as `PATCH`)
is accepted by `setMethod` and rejected with `UnsupportedMethod` only at
dispatch. -/
theorem setMethod_token_spec (rq : Rq) (s t : String)
    (hs : isValidMethodToken s = false)
    (ht : isValidMethodToken t = true)
    (h1 : t ≠ "GET") (h2 : t ≠ "POST") (h3 : t ≠ "PUT") (h4 : t ≠ "DELETE") :
    rq.setMethod "GET" = .ok { rq with method := .GET }
    ∧ rq.setMethod "POST" = .ok { rq with method := .POST }
    ∧ rq.setMethod "PUT" = .ok { rq with method := .PUT }
    ∧ rq.setMethod "DELETE" = .ok { rq with method := .DELETE }
    ∧ buildRequest { rq with method := .GET } =
        .ok ⟨.GET, rq.headers, rq.params,
             if rq.form.isEmpty then .json rq.json else .form rq.form⟩
    ∧ buildRequest { rq with method := .POST } =
        .ok ⟨.POST, rq.headers, rq.params,
             if rq.form.isEmpty then .json rq.json else .form rq.form⟩
    ∧ buildRequest { rq with method := .PUT } =
        .ok ⟨.PUT, rq.headers, rq.params,
             if rq.form.isEmpty then .json rq.json else .form rq.form⟩
    ∧ buildRequest { rq with method := .DELETE } =
        .ok ⟨.DELETE, rq.headers, rq.params,
             if rq.form.isEmpty then .json rq.json else .form rq.form⟩
    ∧ rq.setMethod s = .error .invalidMethod
    ∧ rq.setMethod t = .ok { rq with method := .OTHER t }
    ∧ buildRequest { rq with method := .OTHER t } = .error .unsupportedMethod := by
  refine ⟨rfl, rfl, rfl, rfl, rfl, rfl, rfl, rfl, ?_, ?_, rfl⟩
  · simp [Rq.setMethod, methodFromStr, hs, Except.map]
  · simp [Rq.setMethod, methodFromStr, ht, h1, h2, h3, h4, Except.map]

/-- C3 witness: the amended theorem at a concrete invalid token (a space
is not a token character) and at `PATCH`. -/
theorem setMethod_token_spec_witness :
    rq0.setMethod "no method" = .error .invalidMethod
    ∧ rq0.setMethod "PATCH" = .ok { rq0 with method := .OTHER "PATCH" }
    ∧ buildRequest { rq0 with method := .OTHER "PATCH" } =
        .error .unsupportedMethod := by
  have h := setMethod_token_spec rq0 "no method" "PATCH" (by decide) (by decide)
    (by decide) (by decide) (by decide) (by decide)
  obtain ⟨-, -, -, -, -, -, -, -, hA, hB, hC⟩ := h
  exact ⟨hA, hB, hC⟩

/-- C4: when every status fetch the environment supplies is pending
(`done=false`, or `done=true` without a result), the poller performs
exactly `max_attempts = 10` fetches — not 11 — sleeps after each, and
then fails with the timeout error carrying the attempt count 10. -/
theorem image_poll_timeout_after_ten (rs : Rs) (jwt : String)
    (r : Image.Response) (rq : Rq) (env : List (Except Unit HttpResponse))
    (h0 : Image.Response.fromJson rs.data = .ok r)
    (hrq : Image.pollRequest r.id ("Bearer " ++ rustTrim jwt) = .ok rq)
    (henv : ∀ e ∈ env, Image.pendingFetch rq e = true)
    (hlen : 10 ≤ env.length) :
    Image.Payload.image rs jwt env =
      some (.failed (.operationTimeout 10), ⟨10, 200⟩) := by
  simp only [Image.Payload.image, h0, hrq]
  rw [show Image.maxAttempts = 10 from rfl,
    pollGo_all_pending rq 10 env 0 0 henv hlen]
  rfl

/-- C4 witness: ten pending fetches against the initial operation
envelope yield the timeout after exactly ten attempts. -/
theorem image_poll_timeout_after_ten_witness :
    Image.Payload.image rsInitial "tok" (List.replicate 10 netPending) =
      some (.failed (.operationTimeout 10), ⟨10, 200⟩) :=
  image_poll_timeout_after_ten rsInitial "tok"
    ⟨none, none, "d", false, "op1", none, none, none⟩
    { bot := { url := Image.URL, debug := false }, uri := "/operations/op1",
      json := .obj [], form := [], method := .GET,
      headers := [⟨"authorization", "Bearer tok", true⟩,
                  ⟨"accept", "application/json", false⟩,
                  ⟨"content-type", "application/json", false⟩],
      params := [] }
    (List.replicate 10 netPending) rfl rfl (by decide) (by decide)

/-- C5: a fetch sequence `[done=false, done=false, done=true + result]`
completes the poll after exactly 3 fetches with no error, returning the
decoded result payload; and a fetch reporting `done=true` without a
result is treated as not yet ready — the poller sleeps the fixed
20-time-unit interval and retries. -/
theorem image_poll_completes_third_fetch (rs : Rs) (jwt : String)
    (r : Image.Response) (rq : Rq) (rest : List (Except Unit HttpResponse))
    (h0 : Image.Response.fromJson rs.data = .ok r)
    (hrq : Image.pollRequest r.id ("Bearer " ++ rustTrim jwt) = .ok rq) :
    Image.Payload.image rs jwt (netPending :: netPending :: netDone :: rest) =
      some (.done [65, 66, 67], ⟨3, 40⟩)
    ∧ Image.Payload.image rs jwt (netDoneNoResult :: netDone :: rest) =
      some (.done [65, 66, 67], ⟨2, 20⟩) := by
  have hm : rq.method = Method.GET := pollRequest_method _ _ _ hrq
  have hp : Image.fetchStep rq netPending = .pending := by
    unfold Image.fetchStep netPending
    rw [apply_of_GET rq _ hm]
    rfl
  have hd : Image.fetchStep rq netDone = .complete [65, 66, 67] := by
    unfold Image.fetchStep netDone
    rw [apply_of_GET rq _ hm]
    rfl
  have hnr : Image.fetchStep rq netDoneNoResult = .pending := by
    unfold Image.fetchStep netDoneNoResult
    rw [apply_of_GET rq _ hm]
    rfl
  constructor
  · simp only [Image.Payload.image, h0, hrq]
    rw [show Image.maxAttempts = 9 + 1 from rfl,
      pollGo_cons_pending rq _ _ _ _ _ hp,
      show (9 : Nat) = 8 + 1 from rfl,
      pollGo_cons_pending rq _ _ _ _ _ hp,
      show (8 : Nat) = 7 + 1 from rfl,
      pollGo_cons_complete rq _ _ _ _ _ _ hd]
    rfl
  · simp only [Image.Payload.image, h0, hrq]
    rw [show Image.maxAttempts = 9 + 1 from rfl,
      pollGo_cons_pending rq _ _ _ _ _ hnr,
      show (9 : Nat) = 8 + 1 from rfl,
      pollGo_cons_complete rq _ _ _ _ _ _ hd]
    rfl

/-- C5 witness: the scenario run against the concrete initial envelope
with an empty tail environment. -/
theorem image_poll_completes_third_fetch_witness :
    Image.Payload.image rsInitial "tok" [netPending, netPending, netDone] =
      some (.done [65, 66, 67], ⟨3, 40⟩)
    ∧ Image.Payload.image rsInitial "tok" [netDoneNoResult, netDone] =
      some (.done [65, 66, 67], ⟨2, 20⟩) :=
  image_poll_completes_third_fetch rsInitial "tok"
    ⟨none, none, "d", false, "op1", none, none, none⟩
    { bot := { url := Image.URL, debug := false }, uri := "/operations/op1",
      json := .obj [], form := [], method := .GET,
      headers := [⟨"authorization", "Bearer tok", true⟩,
                  ⟨"accept", "application/json", false⟩,
                  ⟨"content-type", "application/json", false⟩],
      params := [] }
    [] rfl rfl

/-- C10: a status fetch whose envelope data does not decode as an
operation status — in particular one following a non-success HTTP status,
which leaves the envelope's `data` at its default `null` — makes the
poller abort immediately with the decode error: it does not sleep after
the failing fetch, does not retry, and does not reach the timeout. -/
theorem image_poll_decode_aborts (rs : Rs) (jwt : String)
    (r : Image.Response) (rq : Rq) (rest : List (Except Unit HttpResponse))
    (h0 : Image.Response.fromJson rs.data = .ok r)
    (hrq : Image.pollRequest r.id ("Bearer " ++ rustTrim jwt) = .ok rq) :
    Image.Payload.image rs jwt (netFail500 :: rest) =
      some (.failed .decodeError, ⟨1, 0⟩)
    ∧ Image.Payload.image rs jwt (netPending :: netFail500 :: rest) =
      some (.failed .decodeError, ⟨2, 20⟩) := by
  have hm : rq.method = Method.GET := pollRequest_method _ _ _ hrq
  have hp : Image.fetchStep rq netPending = .pending := by
    unfold Image.fetchStep netPending
    rw [apply_of_GET rq _ hm]
    rfl
  have hf : Image.fetchStep rq netFail500 = .abort .decodeError := by
    unfold Image.fetchStep netFail500
    rw [apply_of_GET rq _ hm]
    rfl
  constructor
  · simp only [Image.Payload.image, h0, hrq]
    rw [show Image.maxAttempts = 9 + 1 from rfl,
      pollGo_cons_abort rq _ _ _ _ _ _ hf]
  · simp only [Image.Payload.image, h0, hrq]
    rw [show Image.maxAttempts = 9 + 1 from rfl,
      pollGo_cons_pending rq _ _ _ _ _ hp,
      show (9 : Nat) = 8 + 1 from rfl,
      pollGo_cons_abort rq _ _ _ _ _ _ hf]
    rfl

/-- C6: `add_header` with an invalid header name does not fail — it
returns the builder unchanged (header omitted, after logging) so the
chain continues; `add_header` with a valid name but an invalid value
fails the chain with the invalid-header-value error; and
`add_secret_header` fails on an invalid name or an invalid value. -/
theorem add_header_invalid_name_skips_value_fails (rq : Rq)
    (n₁ v₁ n₂ v₂ : String)
    (h1 : isValidHeaderName n₁ = false)
    (h2 : isValidHeaderName n₂ = true)
    (h3 : isValidHeaderValue v₂ = false) :
    rq.add_header n₁ v₁ = .ok rq
    ∧ rq.add_header n₂ v₂ = .error .invalidHeaderValue
    ∧ (isValidHeaderValue v₁ = true →
        rq.add_secret_header n₁ v₁ = .error .invalidHeaderName)
    ∧ (rq.add_secret_header n₁ v₁).isOk = false
    ∧ rq.add_secret_header n₂ v₂ = .error .invalidHeaderValue := by
  refine ⟨?_, ?_, ?_, ?_, ?_⟩
  · simp [Rq.add_header, h1]
  · simp [Rq.add_header, h2, h3]
  · intro hv
    simp [Rq.add_secret_header, hv, h1]
  · by_cases hv : isValidHeaderValue v₁ = true
    · simp [Rq.add_secret_header, hv, h1, Except.isOk, Except.toBool]
    · have hv2 : isValidHeaderValue v₁ = false := by
        revert hv; cases isValidHeaderValue v₁ <;> simp
      simp [Rq.add_secret_header, hv2, Except.isOk, Except.toBool]
  · simp [Rq.add_secret_header, h3]

/-- C6 witness: a name with a space is skipped with the chain intact; a
newline in a value fails the chain; the secret variant fails on both. -/
theorem add_header_invalid_name_skips_value_fails_witness :
    rq0.add_header "bad name" "x" = .ok rq0
    ∧ rq0.add_header "x-key" "bad\nvalue" = .error .invalidHeaderValue
    ∧ rq0.add_secret_header "bad name" "x" = .error .invalidHeaderName
    ∧ (rq0.add_secret_header "bad name" "x").isOk = false
    ∧ rq0.add_secret_header "x-key" "bad\nvalue" = .error .invalidHeaderValue := by
  have h := add_header_invalid_name_skips_value_fails rq0 "bad name" "x"
    "x-key" "bad\nvalue" (by decide) (by decide) (by decide)
  exact ⟨h.1, h.2.1, h.2.2.1 (by decide), h.2.2.2.1, h.2.2.2.2⟩

/-- C7: inserting a header whose name (compared case-insensitively) is
already present leaves exactly one entry under that name, holding the
second value, and the header count does not grow — last-write-wins with
deduplication.  (`hnodup` states the header-map invariant every builder
reachable by inserts satisfies.) -/
theorem header_insert_last_write_wins (rq rq₁ rq₂ : Rq) (n₁ n₂ v₁ v₂ : String)
    (hn1 : isValidHeaderName n₁ = true) (hv1 : isValidHeaderValue v₁ = true)
    (hn2 : isValidHeaderName n₂ = true) (hv2 : isValidHeaderValue v₂ = true)
    (hsame : lowerName n₁ = lowerName n₂)
    (hnodup : (rq.headers.map HeaderEntry.name).Nodup)
    (h1 : rq.add_header n₁ v₁ = .ok rq₁)
    (h2 : rq₁.add_header n₂ v₂ = .ok rq₂) :
    findName rq₂.headers (lowerName n₂) = some ⟨lowerName n₂, v₂, false⟩
    ∧ countName rq₂.headers (lowerName n₂) = 1
    ∧ rq₂.headers.length = rq₁.headers.length := by
  have e1 : rq₁.headers = headerInsert rq.headers ⟨lowerName n₁, v₁, false⟩ := by
    simp only [Rq.add_header, hn1, hv1, if_true, reduceIte,
      Except.ok.injEq] at h1
    exact (congrArg Rq.headers h1).symm
  have e2 : rq₂.headers = headerInsert rq₁.headers ⟨lowerName n₂, v₂, false⟩ := by
    simp only [Rq.add_header, hn2, hv2, if_true, reduceIte,
      Except.ok.injEq] at h2
    exact (congrArg Rq.headers h2).symm
  have hname : (⟨lowerName n₁, v₁, false⟩ : HeaderEntry).name =
      (⟨lowerName n₂, v₂, false⟩ : HeaderEntry).name := hsame
  have hcollapse := headerInsert_insert_same rq.headers
    ⟨lowerName n₁, v₁, false⟩ ⟨lowerName n₂, v₂, false⟩ hname
  rw [e2, e1, hcollapse]
  refine ⟨?_, ?_, ?_⟩
  · exact findName_insert_self rq.headers ⟨lowerName n₂, v₂, false⟩
  · exact countName_insert rq.headers ⟨lowerName n₂, v₂, false⟩
      (countName_le_one_of_nodup rq.headers (lowerName n₂) hnodup)
  · exact length_headerInsert_name rq.headers ⟨lowerName n₂, v₂, false⟩
      ⟨lowerName n₁, v₁, false⟩ hname.symm

/-- C7 witness: inserting `X-Key` then `x-key` on a fresh builder yields
one `x-key` entry holding the second value, with unchanged count. -/
theorem header_insert_last_write_wins_witness :
    findName [⟨"x-key", "b", false⟩] "x-key" = some ⟨"x-key", "b", false⟩
    ∧ countName [⟨"x-key", "b", false⟩] "x-key" = 1
    ∧ ([⟨"x-key", "b", false⟩] : List HeaderEntry).length =
      ([⟨"x-key", "a", false⟩] : List HeaderEntry).length :=
  header_insert_last_write_wins rq0
    { rq0 with headers := [⟨"x-key", "a", false⟩] }
    { rq0 with headers := [⟨"x-key", "b", false⟩] }
    "X-Key" "x-key" "a" "b" rfl rfl rfl rfl rfl (by decide) rfl rfl

/-- C8: `load_payload` fails with the invalid-payload error when its
argument is not a JSON object; otherwise it merges each top-level key of
the argument into the body, overwriting an existing key and leaving the
others untouched; in particular loading `{"a": 1}` then
`{"a": 2, "b": 3}` on a fresh builder yields body `{"a": 2, "b": 3}`. -/
theorem load_payload_merge_spec (rq : Rq) (j : Json)
    (fs : List (String × Json)) (k k' : String) (v : Json)
    (hno : j.isObj = false) (hobj : rq.json = .obj fs) (hne : k' ≠ k) :
    rq.load_payload j = .error .invalidPayload
    ∧ (∃ rq', rq.load_payload (.obj [(k, v)]) = .ok rq'
        ∧ jsonGet rq'.json k = some v
        ∧ jsonGet rq'.json k' = jsonGet rq.json k')
    ∧ ((rq0.load_payload (.obj [("a", .num 1)])).bind
          (fun r => r.load_payload (.obj [("a", .num 2), ("b", .num 3)]))).map
        Rq.json = .ok (.obj [("a", .num 2), ("b", .num 3)]) := by
  refine ⟨?_, ?_, rfl⟩
  · cases j <;> simp_all [Rq.load_payload, Json.isObj]
  · refine ⟨{ rq with json := jsonSet rq.json k v }, rfl, ?_, ?_⟩
    · rw [hobj]
      simp [jsonSet, jsonGet, lookupKey_insert_self]
    · rw [hobj]
      simp [jsonSet, jsonGet, lookupKey_insert_other _ _ _ _ hne]

/-- C8 witness: a numeric payload is rejected, and a one-key object
merges into the empty body of a fresh builder. -/
theorem load_payload_merge_spec_witness :
    rq0.load_payload (.num 5) = .error .invalidPayload
    ∧ (∃ rq', rq0.load_payload (.obj [("x", .str "w")]) = .ok rq'
        ∧ jsonGet rq'.json "x" = some (.str "w")
        ∧ jsonGet rq'.json "y" = jsonGet rq0.json "y")
    ∧ ((rq0.load_payload (.obj [("a", .num 1)])).bind
          (fun r => r.load_payload (.obj [("a", .num 2), ("b", .num 3)]))).map
        Rq.json = .ok (.obj [("a", .num 2), ("b", .num 3)]) :=
  load_payload_merge_spec rq0 (.num 5) [] "x" "y" (.str "w")
    rfl rfl (by decide)

/-- C9: at dispatch time the JSON body and the form body are mutually
exclusive — when the form is non-empty the request is sent as a
URL-encoded form (the JSON body is ignored), and otherwise the JSON body
is sent, even when it is empty. -/
theorem apply_body_mutually_exclusive (rq : Rq) (sent : SentRequest)
    (h : buildRequest rq = .ok sent) :
    (rq.form ≠ [] → sent.body = .form rq.form)
    ∧ (rq.form = [] → sent.body = .json rq.json) := by
  unfold buildRequest at h
  cases hv : verbOf rq.method with
  | error e => rw [hv] at h; simp [Except.map] at h
  | ok v =>
    rw [hv] at h
    simp only [Except.map, Except.ok.injEq] at h
    subst h
    constructor
    · intro hf
      have hne : rq.form.isEmpty = false := by
        cases hfm : rq.form with
        | nil => exact absurd hfm hf
        | cons a l => rfl
      simp [hne]
    · intro hf
      simp [hf]

/-- C9 witness: a builder with one form pair dispatches a form body. -/
theorem apply_body_mutually_exclusive_witness :
    (SentRequest.mk .GET [] [] (.form [("k", "v")])).body = .form [("k", "v")] :=
  (apply_body_mutually_exclusive (rq0.add_form "k" "v")
    (SentRequest.mk .GET [] [] (.form [("k", "v")])) rfl).1 (by decide)

/-- C10 witness: the decode abort run at the concrete fixtures with an
empty tail environment. -/
theorem image_poll_decode_aborts_witness :
    Image.Payload.image rsInitial "tok" [netFail500] =
      some (.failed .decodeError, ⟨1, 0⟩)
    ∧ Image.Payload.image rsInitial "tok" [netPending, netFail500] =
      some (.failed .decodeError, ⟨2, 20⟩) :=
  image_poll_decode_aborts rsInitial "tok"
    ⟨none, none, "d", false, "op1", none, none, none⟩
    { bot := { url := Image.URL, debug := false }, uri := "/operations/op1",
      json := .obj [], form := [], method := .GET,
      headers := [⟨"authorization", "Bearer tok", true⟩,
                  ⟨"accept", "application/json", false⟩,
                  ⟨"content-type", "application/json", false⟩],
      params := [] }
    [] rfl rfl

end Rqrs
